import Mathlib

/-!
Shallow embedding of the firecode traversal and migration core.

The repository source under scrutiny provides the `BatchMigrator` class
(constructor, `withPredicate`, `set`, `update`) in
`packages/admin/src/api/interfaces/Migrator.ts`.  The traverser
implementations (`BasicSlowTraverserImplementation`,
`PromiseQueueBasedFastTraverserImplementation`) and `validateConfig` are not
part of the provided sources; those definitions are modelled from the spec and
marked as such in their doc comments.
-/

namespace Firecode

/-- Traversal configuration (spec section 3, `TraversalConfig`): batch size,
inter-batch delay in milliseconds, optional maximum record count, and the
concurrent variant maximum number of in-flight batches.  The delay is an
integer so that the invalid negative case is representable. -/
structure TraversalConfig where
  batchSize : Nat
  delayBetweenBatchesMs : Int
  maxDocCount : Option Nat
  maxConcurrentBatchCount : Nat
  deriving Repr, DecidableEq

/-- Modelled from the spec: `validateConfig` (its implementation file is not
among the provided sources, only its call site in the `BatchMigrator`
constructor is).  A configuration is valid iff the batch size and the
concurrency are positive and the delay is non-negative (spec sections 3, 7). -/
def validateConfig (c : TraversalConfig) : Bool :=
  decide (1 ≤ c.batchSize) && decide (1 ≤ c.maxConcurrentBatchCount) &&
    decide (0 ≤ c.delayBetweenBatchesMs)

/-- Modelled from the spec: the traverser stops fetching once the running
record count has reached `maxDocCount`; with no `maxDocCount` it never stops
early (spec section 4.1, Advancing). -/
def reachedMaxDocCount (maxDocCount : Option Nat) (docCount : Nat) : Bool :=
  match maxDocCount with
  | some m => decide (m ≤ docCount)
  | none => false

/-- Modelled from the spec: the page enumeration of the sequential traverser
(spec section 4.1).  Each step fetches the next `batchSize` records after the
cursor (here: the position reached so far), an empty page terminates the
traversal, and the cursor for the next page is derived from the last record of
the current page (here: dropping the fetched records).  `fuel` is an upper
bound on the number of remaining records, used only to make the recursion
structural; callers pass the length of the list, which suffices because every
step consumes at least one record when `batchSize` is positive. -/
def traverseBatchesAux (batchSize : Nat) (maxDocCount : Option Nat) :
    Nat → Nat → List R → List (List R)
  | _, _, [] => []
  | 0, _, _ :: _ => []
  | fuel + 1, docCount, r :: rs =>
    if batchSize = 0 then []
    else
      let batch := (r :: rs).take batchSize
      let newDocCount := docCount + batch.length
      if reachedMaxDocCount maxDocCount newDocCount then [batch]
      else
        batch :: traverseBatchesAux batchSize maxDocCount fuel newDocCount
          ((r :: rs).drop batchSize)

/-- Modelled from the spec: the list of batches visited by a traversal that
starts with `docCount` records already counted. -/
def traverseBatchesFrom (batchSize : Nat) (maxDocCount : Option Nat)
    (docCount : Nat) (l : List R) : List (List R) :=
  traverseBatchesAux batchSize maxDocCount l.length docCount l

/-- Result of a traversal (spec section 3, `TraversalResult`). -/
structure TraversalResult where
  batchCount : Nat
  docCount : Nat
  deriving Repr, DecidableEq

/-- Modelled from the spec: a traverser consists of the ordered collection of
records the traversable yields and the traversal configuration (source fields
`traversable` and `traversalConfig`). -/
structure Traverser (R : Type) where
  traversable : List R
  traversalConfig : TraversalConfig

/-- The batches a traverser visits when run to completion. -/
def Traverser.batches (t : Traverser R) : List (List R) :=
  traverseBatchesFrom t.traversalConfig.batchSize t.traversalConfig.maxDocCount
    0 t.traversable

/-- Modelled from the spec: `traverse` of the sequential traverser, restricted
to the counters it returns; `batchCount` is incremented once per visited batch
and `docCount` by the size of each visited batch (spec section 4.1). -/
def Traverser.traverse (t : Traverser R) : TraversalResult :=
  ⟨t.batches.length, (t.batches.map List.length).sum⟩

/-- Modelled from the spec: the page enumeration of the concurrent (fast)
traverser.  Per spec section 4.2, cursor derivation is sequential even though
callback execution is concurrent: unit i+1 starts from the cursor computed
from the page of unit i, so pages are enumerated strictly in order and cover
the collection exactly as the sequential variant does, regardless of
`maxConcurrentBatchCount`, which bounds only how many callbacks are in
flight. -/
def fastTraverseBatches (t : Traverser R) : List (List R) :=
  traverseBatchesFrom t.traversalConfig.batchSize t.traversalConfig.maxDocCount
    0 t.traversable

/-- Modelled from the spec: `traverse` of the concurrent traverser; the
counters count admitted pages exactly as the sequential variant counts visited
pages. -/
def Traverser.fastTraverse (t : Traverser R) : TraversalResult :=
  ⟨(fastTraverseBatches t).length, ((fastTraverseBatches t).map List.length).sum⟩

theorem traverseBatchesAux_none_join (B : Nat) (hB : 1 ≤ B) :
    ∀ (fuel : Nat) (l : List R) (c : Nat), l.length ≤ fuel →
      (traverseBatchesAux B none fuel c l).flatten = l := by
  intro fuel
  induction fuel with
  | zero =>
    intro l c h
    have hl : l = [] := List.length_eq_zero.mp (Nat.le_zero.mp h)
    subst hl
    rfl
  | succ n ih =>
    intro l c h
    match l with
    | [] => rfl
    | r :: rs =>
      simp only [traverseBatchesAux]
      rw [if_neg (by omega)]
      simp only [reachedMaxDocCount, Bool.false_eq_true, if_false,
        List.flatten_cons]
      rw [ih ((r :: rs).drop B) _ ?_]
      · exact List.take_append_drop B (r :: rs)
      · simp only [List.length_drop, List.length_cons]
        simp only [List.length_cons] at h
        omega

theorem ceilDiv_step (len B : Nat) (hB : 1 ≤ B) (hlen : 1 ≤ len) :
    (len + B - 1) / B = ((len - B) + B - 1) / B + 1 := by
  rcases le_or_lt len B with hc | hc
  · have e1 : len - B = 0 := by omega
    have e2 : len + B - 1 = (len - 1) + B := by omega
    rw [e1, e2, Nat.add_div_right _ (by omega : 0 < B)]
    rw [Nat.div_eq_of_lt (by omega), Nat.div_eq_of_lt (by omega)]
  · have e1 : len - B + B - 1 = (len - B - 1) + B := by omega
    have e2 : len + B - 1 = ((len - B - 1) + B) + B := by omega
    rw [e1, e2, Nat.add_div_right _ (by omega : 0 < B),
      Nat.add_div_right _ (by omega : 0 < B)]

theorem traverseBatchesAux_none_length (B : Nat) (hB : 1 ≤ B) :
    ∀ (fuel : Nat) (l : List R) (c : Nat), l.length ≤ fuel →
      (traverseBatchesAux B none fuel c l).length = (l.length + B - 1) / B := by
  intro fuel
  induction fuel with
  | zero =>
    intro l c h
    have hl : l = [] := List.length_eq_zero.mp (Nat.le_zero.mp h)
    subst hl
    simp [traverseBatchesAux, Nat.div_eq_of_lt (by omega : B - 1 < B)]
  | succ n ih =>
    intro l c h
    match l with
    | [] => simp [traverseBatchesAux, Nat.div_eq_of_lt (by omega : B - 1 < B)]
    | r :: rs =>
      simp only [traverseBatchesAux]
      rw [if_neg (by omega)]
      simp only [reachedMaxDocCount, Bool.false_eq_true, if_false,
        List.length_cons]
      rw [ih ((r :: rs).drop B) _ ?_]
      · rw [List.length_drop]
        simp only [List.length_cons]
        exact (ceilDiv_step (rs.length + 1) B hB (by omega)).symm
      · simp only [List.length_drop, List.length_cons]
        simp only [List.length_cons] at h
        omega

/-- Error kinds surfaced by construction and migration (spec section 7):
configuration errors at construction time, commit errors mid-migration. -/
inductive MigrationError where
  | configuration
  | commit
  deriving Repr, DecidableEq

/-- Result of a migration (source type `MigrationResult`): the traversal
counters plus the number of migrated records. -/
structure MigrationResult where
  batchCount : Nat
  traversedDocCount : Nat
  migratedDocCount : Nat
  deriving Repr, DecidableEq

/-- Modelled from the spec: the registered-callback slots of the base
`Migrator` class (its file is not among the provided sources; spec section 9
prescribes one optional slot per hook point, replaced on re-registration).
Only the presence of a registered hook is observable in the embedding, since
the hooks are fire-and-forget void callbacks. -/
structure RegisteredCallbacks where
  onBeforeBatchStart : Bool
  onAfterBatchComplete : Bool
  deriving Repr, DecidableEq

/-- Empty callback slots, the state of a freshly constructed migrator. -/
def noCallbacks : RegisteredCallbacks := ⟨false, false⟩

/-- Observable hook invocations of a migration run. -/
inductive MigratorEvent where
  | beforeBatchStart (batchIndex : Nat)
  | afterBatchComplete (batchIndex : Nat)
  deriving Repr, DecidableEq

/-- Options of a batched `set` call (firestore `SetOptions`); carried through
the embedding untouched. -/
structure SetOptions where
  merge : Bool
  deriving Repr, DecidableEq

/-- One document write staged into the batched write of a `set` call:
`writeBatch.set(snapshot.ref, data)` or
`writeBatch.set(snapshot.ref, data, options)`; the snapshot itself stands for
its `ref`. -/
structure SetWrite (R W : Type) where
  ref : R
  data : W
  options : Option SetOptions
  deriving Repr, DecidableEq

/-- The write staged for one snapshot by `BatchMigrator.set` (Migrator.ts
lines 515-537): the four signatures dispatch on whether `dataOrGetData` is a
function and on whether `options` is present. -/
def setWriteOp (dataOrGetData : (R → W) ⊕ W) (options : Option SetOptions)
    (snapshot : R) : SetWrite R W :=
  match dataOrGetData, options with
  | Sum.inl getData, none => ⟨snapshot, getData snapshot, none⟩
  | Sum.inl getData, some o => ⟨snapshot, getData snapshot, some o⟩
  | Sum.inr data, none => ⟨snapshot, data, none⟩
  | Sum.inr data, some o => ⟨snapshot, data, some o⟩

/-- The `BatchMigrator` class (Migrator.ts lines 379-390): the traverser, the
migration predicate, and the registered-callback slots inherited from the
base class. -/
structure BatchMigrator (R : Type) where
  traverser : Traverser R
  migrationPredicate : R → Bool
  registeredCallbacks : RegisteredCallbacks

/-- The `BatchMigrator` constructor (Migrator.ts lines 384-390): it stores
the traverser and the predicate (default: migrate every document) and
validates the traverser configuration, rejecting an invalid one with a
configuration error raised synchronously at construction.  The callback slots
of the new instance are empty. -/
def BatchMigrator.construct (traverser : Traverser R)
    (migrationPredicate : R → Bool := fun _ => true) :
    Except MigrationError (BatchMigrator R) :=
  if validateConfig traverser.traversalConfig then
    Except.ok ⟨traverser, migrationPredicate, noCallbacks⟩
  else Except.error MigrationError.configuration

/-- Modelled from the spec: `createTraverser` validates the configuration
once at traverser construction (spec section 3; the implementation file is
not among the provided sources). -/
def createTraverser (traversable : List R) (config : TraversalConfig) :
    Except MigrationError (Traverser R) :=
  if validateConfig config then Except.ok ⟨traversable, config⟩
  else Except.error MigrationError.configuration

/-- `BatchMigrator.withPredicate` (Migrator.ts lines 399-401): returns
`new BatchMigrator(this.traverser, predicate)` - a new migrator built from
the current traverser and the argument predicate alone; the constructor
leaves the callback slots empty.  The stored predicate of the receiver is not
consulted. -/
def BatchMigrator.withPredicate (m : BatchMigrator R) (predicate : R → Bool) :
    BatchMigrator R :=
  ⟨m.traverser, predicate, noCallbacks⟩

/-- Modelled from the spec: registering a before-batch hook fills the single
before-batch slot, replacing any previous registration (the base class file
is not among the provided sources; only presence is tracked). -/
def BatchMigrator.onBeforeBatchStart (m : BatchMigrator R) : BatchMigrator R :=
  { m with registeredCallbacks :=
      { m.registeredCallbacks with onBeforeBatchStart := true } }

/-- Modelled from the spec: registering an after-batch hook fills the single
after-batch slot, replacing any previous registration. -/
def BatchMigrator.onAfterBatchComplete (m : BatchMigrator R) : BatchMigrator R :=
  { m with registeredCallbacks :=
      { m.registeredCallbacks with onAfterBatchComplete := true } }

/-- Full observable outcome of a `BatchMigrator.set` call: the returned
result (or propagated error), the committed batch writes in commit order, the
hook events in firing order, and the final value of the internal
`migratedDocCount` variable. -/
structure SetRun (R W : Type) where
  result : Except MigrationError MigrationResult
  committedWrites : List (List (SetWrite R W))
  events : List MigratorEvent
  migratedDocCount : Nat

/-- The per-batch work of `BatchMigrator.set` (Migrator.ts lines 493-548),
driven over the batches the traverser visits.  For each batch: fire the
before-batch hook if one is registered; stage one write per snapshot that
passes the migration predicate, counting them in `migratableDocCount`; commit
the staged batch write atomically (`commitOk` tells whether the commit of a
given batch index succeeds, modelling the external atomic batch write of spec
section 6); on success add `migratableDocCount` to `migratedDocCount` and
fire the after-batch hook; on failure abort the remaining traversal and
propagate a commit error, per the sequential traverser failure semantics
(spec section 4.1).  The accumulators are the batch index, the traversed
record count, the migrated record count, the committed writes and the fired
events. -/
def BatchMigrator.setLoop (m : BatchMigrator R) (dataOrGetData : (R → W) ⊕ W)
    (options : Option SetOptions) (commitOk : Nat → Bool) :
    List (List R) → Nat → Nat → Nat → List (List (SetWrite R W)) →
      List MigratorEvent → SetRun R W
  | [], batchIndex, docCount, migratedDocCount, committed, events =>
    ⟨Except.ok ⟨batchIndex, docCount, migratedDocCount⟩, committed, events,
      migratedDocCount⟩
  | snapshots :: rest, batchIndex, docCount, migratedDocCount, committed,
      events =>
    let events1 := events ++
      (if m.registeredCallbacks.onBeforeBatchStart then
        [MigratorEvent.beforeBatchStart batchIndex] else [])
    let writes := (snapshots.filter m.migrationPredicate).map
      (setWriteOp dataOrGetData options)
    let migratableDocCount := (snapshots.filter m.migrationPredicate).length
    if commitOk batchIndex then
      let events2 := events1 ++
        (if m.registeredCallbacks.onAfterBatchComplete then
          [MigratorEvent.afterBatchComplete batchIndex] else [])
      BatchMigrator.setLoop m dataOrGetData options commitOk rest
        (batchIndex + 1) (docCount + snapshots.length)
        (migratedDocCount + migratableDocCount) (committed ++ [writes]) events2
    else
      ⟨Except.error MigrationError.commit, committed, events1,
        migratedDocCount⟩

/-- `BatchMigrator.set` (Migrator.ts lines 493-548): traverse the collection
and run the per-batch work on every visited batch, starting from batch index
0 and zero counters. -/
def BatchMigrator.set (m : BatchMigrator R) (dataOrGetData : (R → W) ⊕ W)
    (options : Option SetOptions) (commitOk : Nat → Bool) : SetRun R W :=
  BatchMigrator.setLoop m dataOrGetData options commitOk m.traverser.batches
    0 0 0 [] []

/-- First argument of `BatchMigrator.update` (Migrator.ts lines 617-620):
either an update-data getter function, or a plain value (firestore update
data or a field path; the runtime dispatch does not distinguish those two). -/
inductive UpdateArg (R V : Type) where
  | getData (f : R → V)
  | value (v : V)

/-- One document update staged into the batched write of an `update` call:
either `writeBatch.update(snapshot.ref, data)` (signatures 1 and 2) or
`writeBatch.update(snapshot.ref, field, value)` (signature 3; the value slot
mirrors a possibly absent JavaScript argument). -/
inductive UpdateWrite (R V : Type) where
  | dataUpdate (ref : R) (data : V)
  | fieldUpdate (ref : R) (field : V) (value : Option V)
  deriving Repr, DecidableEq

/-- The argument count computed by `BatchMigrator.update` (Migrator.ts line
621): the number of entries of `[arg1, arg2]` that are not `undefined`.  The
first argument is never `undefined` in the typed API, so the count is 1 plus
1 when `arg2` is present. -/
def updateArgCount (arg2 : Option V) : Nat :=
  1 + (if arg2.isSome then 1 else 0)

/-- The write staged for one snapshot by `BatchMigrator.update` (Migrator.ts
lines 629-655): signature 1 when the first argument is a function, signature
2 when the argument count is 1, signature 3 otherwise. -/
def updateWriteOp (arg1 : UpdateArg R V) (arg2 : Option V) (snapshot : R) :
    UpdateWrite R V :=
  match arg1 with
  | UpdateArg.getData f => UpdateWrite.dataUpdate snapshot (f snapshot)
  | UpdateArg.value v =>
    if updateArgCount arg2 = 1 then UpdateWrite.dataUpdate snapshot v
    else UpdateWrite.fieldUpdate snapshot v arg2

/-- Full observable outcome of a `BatchMigrator.update` call, in the shape of
`SetRun`.  The `events` component records hook invocations; the source
`update` method never invokes the registered callbacks, which the loop below
mirrors by never extending it. -/
structure UpdateRun (R V : Type) where
  result : Except MigrationError MigrationResult
  committedWrites : List (List (UpdateWrite R V))
  events : List MigratorEvent
  migratedDocCount : Nat

/-- The per-batch work of `BatchMigrator.update` (Migrator.ts lines 617-664),
driven over the batches the traverser visits.  For each batch: stage one
update per snapshot that passes the migration predicate, counting them;
commit the staged batch write atomically; on success add the count to
`migratedDocCount`; on failure abort the remaining traversal and propagate a
commit error.  Unlike `set`, no hook is ever fired. -/
def BatchMigrator.updateLoop (m : BatchMigrator R) (arg1 : UpdateArg R V)
    (arg2 : Option V) (commitOk : Nat → Bool) :
    List (List R) → Nat → Nat → Nat → List (List (UpdateWrite R V)) →
      UpdateRun R V
  | [], batchIndex, docCount, migratedDocCount, committed =>
    ⟨Except.ok ⟨batchIndex, docCount, migratedDocCount⟩, committed, [],
      migratedDocCount⟩
  | snapshots :: rest, batchIndex, docCount, migratedDocCount, committed =>
    let writes := (snapshots.filter m.migrationPredicate).map
      (updateWriteOp arg1 arg2)
    let migratableDocCount := (snapshots.filter m.migrationPredicate).length
    if commitOk batchIndex then
      BatchMigrator.updateLoop m arg1 arg2 commitOk rest (batchIndex + 1)
        (docCount + snapshots.length) (migratedDocCount + migratableDocCount)
        (committed ++ [writes])
    else
      ⟨Except.error MigrationError.commit, committed, [], migratedDocCount⟩

/-- `BatchMigrator.update` (Migrator.ts lines 617-664): traverse the
collection and run the per-batch update work on every visited batch, starting
from batch index 0 and zero counters. -/
def BatchMigrator.update (m : BatchMigrator R) (arg1 : UpdateArg R V)
    (arg2 : Option V) (commitOk : Nat → Bool) : UpdateRun R V :=
  BatchMigrator.updateLoop m arg1 arg2 commitOk m.traverser.batches 0 0 0 []

theorem setLoop_cons_ok (m : BatchMigrator R) (dataOrGetData : (R → W) ⊕ W)
    (options : Option SetOptions) (commitOk : Nat → Bool) (b : List R)
    (rest : List (List R)) (idx docs mig : Nat)
    (comm : List (List (SetWrite R W))) (evs : List MigratorEvent)
    (hb : commitOk idx = true) :
    BatchMigrator.setLoop m dataOrGetData options commitOk (b :: rest) idx
        docs mig comm evs =
      BatchMigrator.setLoop m dataOrGetData options commitOk rest (idx + 1)
        (docs + b.length) (mig + (b.filter m.migrationPredicate).length)
        (comm ++ [(b.filter m.migrationPredicate).map
          (setWriteOp dataOrGetData options)])
        ((evs ++
          (if m.registeredCallbacks.onBeforeBatchStart then
            [MigratorEvent.beforeBatchStart idx] else [])) ++
          (if m.registeredCallbacks.onAfterBatchComplete then
            [MigratorEvent.afterBatchComplete idx] else [])) := by
  simp [BatchMigrator.setLoop, hb]

theorem setLoop_cons_fail (m : BatchMigrator R) (dataOrGetData : (R → W) ⊕ W)
    (options : Option SetOptions) (commitOk : Nat → Bool) (b : List R)
    (rest : List (List R)) (idx docs mig : Nat)
    (comm : List (List (SetWrite R W))) (evs : List MigratorEvent)
    (hb : commitOk idx = false) :
    BatchMigrator.setLoop m dataOrGetData options commitOk (b :: rest) idx
        docs mig comm evs =
      ⟨Except.error MigrationError.commit, comm,
        evs ++
          (if m.registeredCallbacks.onBeforeBatchStart then
            [MigratorEvent.beforeBatchStart idx] else []), mig⟩ := by
  simp [BatchMigrator.setLoop, hb]

theorem setLoop_ok (m : BatchMigrator R) (dataOrGetData : (R → W) ⊕ W)
    (options : Option SetOptions) (commitOk : Nat → Bool)
    (h : ∀ i, commitOk i = true) :
    ∀ (bs : List (List R)) (idx docs mig : Nat)
      (comm : List (List (SetWrite R W))) (evs : List MigratorEvent),
      (BatchMigrator.setLoop m dataOrGetData options commitOk bs idx docs mig
          comm evs).result =
        Except.ok ⟨idx + bs.length, docs + (bs.map List.length).sum,
          mig + (bs.map
            (fun b => (b.filter m.migrationPredicate).length)).sum⟩ ∧
      (BatchMigrator.setLoop m dataOrGetData options commitOk bs idx docs mig
          comm evs).committedWrites =
        comm ++ bs.map (fun b => (b.filter m.migrationPredicate).map
          (setWriteOp dataOrGetData options)) ∧
      (BatchMigrator.setLoop m dataOrGetData options commitOk bs idx docs mig
          comm evs).migratedDocCount =
        mig + (bs.map
          (fun b => (b.filter m.migrationPredicate).length)).sum := by
  intro bs
  induction bs with
  | nil =>
    intro idx docs mig comm evs
    simp [BatchMigrator.setLoop]
  | cons b rest ih =>
    intro idx docs mig comm evs
    rw [setLoop_cons_ok m dataOrGetData options commitOk b rest idx docs mig
      comm evs (h idx)]
    obtain ⟨r1, r2, r3⟩ := ih (idx + 1) (docs + b.length)
      (mig + (b.filter m.migrationPredicate).length)
      (comm ++ [(b.filter m.migrationPredicate).map
        (setWriteOp dataOrGetData options)])
      ((evs ++
        (if m.registeredCallbacks.onBeforeBatchStart then
          [MigratorEvent.beforeBatchStart idx] else [])) ++
        (if m.registeredCallbacks.onAfterBatchComplete then
          [MigratorEvent.afterBatchComplete idx] else []))
    refine ⟨?_, ?_, ?_⟩
    · rw [r1]
      simp only [Except.ok.injEq, MigrationResult.mk.injEq, List.map_cons,
        List.sum_cons, List.length_cons]
      omega
    · rw [r2]
      simp
    · rw [r3]
      simp only [List.map_cons, List.sum_cons]
      omega

theorem setLoop_fail (m : BatchMigrator R) (dataOrGetData : (R → W) ⊕ W)
    (options : Option SetOptions) (commitOk : Nat → Bool) :
    ∀ (bs1 : List (List R)) (b2 : List R) (bs2 : List (List R))
      (idx docs mig : Nat) (comm : List (List (SetWrite R W)))
      (evs : List MigratorEvent),
      (∀ j, j < bs1.length → commitOk (idx + j) = true) →
      commitOk (idx + bs1.length) = false →
      (BatchMigrator.setLoop m dataOrGetData options commitOk
          (bs1 ++ b2 :: bs2) idx docs mig comm evs).result =
        Except.error MigrationError.commit ∧
      (BatchMigrator.setLoop m dataOrGetData options commitOk
          (bs1 ++ b2 :: bs2) idx docs mig comm evs).committedWrites =
        comm ++ bs1.map (fun b => (b.filter m.migrationPredicate).map
          (setWriteOp dataOrGetData options)) ∧
      (BatchMigrator.setLoop m dataOrGetData options commitOk
          (bs1 ++ b2 :: bs2) idx docs mig comm evs).migratedDocCount =
        mig + (bs1.map
          (fun b => (b.filter m.migrationPredicate).length)).sum := by
  intro bs1
  induction bs1 with
  | nil =>
    intro b2 bs2 idx docs mig comm evs h1 h2
    simp only [List.length_nil, Nat.add_zero] at h2
    rw [List.nil_append,
      setLoop_cons_fail m dataOrGetData options commitOk b2 bs2 idx docs mig
        comm evs h2]
    simp
  | cons b bs1 ih =>
    intro b2 bs2 idx docs mig comm evs h1 h2
    have hb : commitOk idx = true := by
      have := h1 0 (by simp)
      simpa using this
    rw [List.cons_append,
      setLoop_cons_ok m dataOrGetData options commitOk b (bs1 ++ b2 :: bs2)
        idx docs mig comm evs hb]
    have h1s : ∀ j, j < bs1.length → commitOk (idx + 1 + j) = true := by
      intro j hj
      have e : idx + 1 + j = idx + (j + 1) := by omega
      rw [e]
      exact h1 (j + 1) (by simp; omega)
    have h2s : commitOk (idx + 1 + bs1.length) = false := by
      have e : idx + 1 + bs1.length = idx + (b :: bs1).length := by
        simp; omega
      rw [e]
      exact h2
    obtain ⟨r1, r2, r3⟩ := ih b2 bs2 (idx + 1) (docs + b.length)
      (mig + (b.filter m.migrationPredicate).length)
      (comm ++ [(b.filter m.migrationPredicate).map
        (setWriteOp dataOrGetData options)])
      ((evs ++
        (if m.registeredCallbacks.onBeforeBatchStart then
          [MigratorEvent.beforeBatchStart idx] else [])) ++
        (if m.registeredCallbacks.onAfterBatchComplete then
          [MigratorEvent.afterBatchComplete idx] else [])) h1s h2s
    refine ⟨r1, ?_, ?_⟩
    · rw [r2]
      simp
    · rw [r3]
      simp only [List.map_cons, List.sum_cons]
      omega

theorem updateLoop_cons_ok (m : BatchMigrator R) (arg1 : UpdateArg R V)
    (arg2 : Option V) (commitOk : Nat → Bool) (b : List R)
    (rest : List (List R)) (idx docs mig : Nat)
    (comm : List (List (UpdateWrite R V))) (hb : commitOk idx = true) :
    BatchMigrator.updateLoop m arg1 arg2 commitOk (b :: rest) idx docs mig
        comm =
      BatchMigrator.updateLoop m arg1 arg2 commitOk rest (idx + 1)
        (docs + b.length) (mig + (b.filter m.migrationPredicate).length)
        (comm ++ [(b.filter m.migrationPredicate).map
          (updateWriteOp arg1 arg2)]) := by
  simp [BatchMigrator.updateLoop, hb]

theorem updateLoop_cons_fail (m : BatchMigrator R) (arg1 : UpdateArg R V)
    (arg2 : Option V) (commitOk : Nat → Bool) (b : List R)
    (rest : List (List R)) (idx docs mig : Nat)
    (comm : List (List (UpdateWrite R V))) (hb : commitOk idx = false) :
    BatchMigrator.updateLoop m arg1 arg2 commitOk (b :: rest) idx docs mig
        comm =
      ⟨Except.error MigrationError.commit, comm, [], mig⟩ := by
  simp [BatchMigrator.updateLoop, hb]

theorem updateLoop_ok (m : BatchMigrator R) (arg1 : UpdateArg R V)
    (arg2 : Option V) (commitOk : Nat → Bool)
    (h : ∀ i, commitOk i = true) :
    ∀ (bs : List (List R)) (idx docs mig : Nat)
      (comm : List (List (UpdateWrite R V))),
      (BatchMigrator.updateLoop m arg1 arg2 commitOk bs idx docs mig
          comm).result =
        Except.ok ⟨idx + bs.length, docs + (bs.map List.length).sum,
          mig + (bs.map
            (fun b => (b.filter m.migrationPredicate).length)).sum⟩ ∧
      (BatchMigrator.updateLoop m arg1 arg2 commitOk bs idx docs mig
          comm).committedWrites =
        comm ++ bs.map (fun b => (b.filter m.migrationPredicate).map
          (updateWriteOp arg1 arg2)) ∧
      (BatchMigrator.updateLoop m arg1 arg2 commitOk bs idx docs mig
          comm).migratedDocCount =
        mig + (bs.map
          (fun b => (b.filter m.migrationPredicate).length)).sum := by
  intro bs
  induction bs with
  | nil =>
    intro idx docs mig comm
    simp [BatchMigrator.updateLoop]
  | cons b rest ih =>
    intro idx docs mig comm
    rw [updateLoop_cons_ok m arg1 arg2 commitOk b rest idx docs mig comm
      (h idx)]
    obtain ⟨r1, r2, r3⟩ := ih (idx + 1) (docs + b.length)
      (mig + (b.filter m.migrationPredicate).length)
      (comm ++ [(b.filter m.migrationPredicate).map (updateWriteOp arg1 arg2)])
    refine ⟨?_, ?_, ?_⟩
    · rw [r1]
      simp only [Except.ok.injEq, MigrationResult.mk.injEq, List.map_cons,
        List.sum_cons, List.length_cons]
      omega
    · rw [r2]
      simp
    · rw [r3]
      simp only [List.map_cons, List.sum_cons]
      omega

theorem updateLoop_fail (m : BatchMigrator R) (arg1 : UpdateArg R V)
    (arg2 : Option V) (commitOk : Nat → Bool) :
    ∀ (bs1 : List (List R)) (b2 : List R) (bs2 : List (List R))
      (idx docs mig : Nat) (comm : List (List (UpdateWrite R V))),
      (∀ j, j < bs1.length → commitOk (idx + j) = true) →
      commitOk (idx + bs1.length) = false →
      (BatchMigrator.updateLoop m arg1 arg2 commitOk (bs1 ++ b2 :: bs2) idx
          docs mig comm).result =
        Except.error MigrationError.commit ∧
      (BatchMigrator.updateLoop m arg1 arg2 commitOk (bs1 ++ b2 :: bs2) idx
          docs mig comm).committedWrites =
        comm ++ bs1.map (fun b => (b.filter m.migrationPredicate).map
          (updateWriteOp arg1 arg2)) ∧
      (BatchMigrator.updateLoop m arg1 arg2 commitOk (bs1 ++ b2 :: bs2) idx
          docs mig comm).migratedDocCount =
        mig + (bs1.map
          (fun b => (b.filter m.migrationPredicate).length)).sum := by
  intro bs1
  induction bs1 with
  | nil =>
    intro b2 bs2 idx docs mig comm h1 h2
    simp only [List.length_nil, Nat.add_zero] at h2
    rw [List.nil_append,
      updateLoop_cons_fail m arg1 arg2 commitOk b2 bs2 idx docs mig comm h2]
    simp
  | cons b bs1 ih =>
    intro b2 bs2 idx docs mig comm h1 h2
    have hb : commitOk idx = true := by
      have := h1 0 (by simp)
      simpa using this
    rw [List.cons_append,
      updateLoop_cons_ok m arg1 arg2 commitOk b (bs1 ++ b2 :: bs2) idx docs
        mig comm hb]
    have h1s : ∀ j, j < bs1.length → commitOk (idx + 1 + j) = true := by
      intro j hj
      have e : idx + 1 + j = idx + (j + 1) := by omega
      rw [e]
      exact h1 (j + 1) (by simp; omega)
    have h2s : commitOk (idx + 1 + bs1.length) = false := by
      have e : idx + 1 + bs1.length = idx + (b :: bs1).length := by
        simp; omega
      rw [e]
      exact h2
    obtain ⟨r1, r2, r3⟩ := ih b2 bs2 (idx + 1) (docs + b.length)
      (mig + (b.filter m.migrationPredicate).length)
      (comm ++ [(b.filter m.migrationPredicate).map
        (updateWriteOp arg1 arg2)]) h1s h2s
    refine ⟨r1, ?_, ?_⟩
    · rw [r2]
      simp
    · rw [r3]
      simp only [List.map_cons, List.sum_cons]
      omega

theorem setLoop_error_is_commit (m : BatchMigrator R)
    (dataOrGetData : (R → W) ⊕ W) (options : Option SetOptions)
    (commitOk : Nat → Bool) :
    ∀ (bs : List (List R)) (idx docs mig : Nat)
      (comm : List (List (SetWrite R W))) (evs : List MigratorEvent)
      (e : MigrationError),
      (BatchMigrator.setLoop m dataOrGetData options commitOk bs idx docs mig
          comm evs).result = Except.error e →
      e = MigrationError.commit := by
  intro bs
  induction bs with
  | nil =>
    intro idx docs mig comm evs e h
    simp [BatchMigrator.setLoop] at h
  | cons b rest ih =>
    intro idx docs mig comm evs e h
    by_cases hb : commitOk idx = true
    · rw [setLoop_cons_ok m dataOrGetData options commitOk b rest idx docs
        mig comm evs hb] at h
      exact ih _ _ _ _ _ e h
    · rw [setLoop_cons_fail m dataOrGetData options commitOk b rest idx docs
        mig comm evs (by simpa using hb)] at h
      simpa using h.symm

theorem updateLoop_error_is_commit (m : BatchMigrator R)
    (arg1 : UpdateArg R V) (arg2 : Option V) (commitOk : Nat → Bool) :
    ∀ (bs : List (List R)) (idx docs mig : Nat)
      (comm : List (List (UpdateWrite R V))) (e : MigrationError),
      (BatchMigrator.updateLoop m arg1 arg2 commitOk bs idx docs mig
          comm).result = Except.error e →
      e = MigrationError.commit := by
  intro bs
  induction bs with
  | nil =>
    intro idx docs mig comm e h
    simp [BatchMigrator.updateLoop] at h
  | cons b rest ih =>
    intro idx docs mig comm e h
    by_cases hb : commitOk idx = true
    · rw [updateLoop_cons_ok m arg1 arg2 commitOk b rest idx docs mig comm
        hb] at h
      exact ih _ _ _ _ e h
    · rw [updateLoop_cons_fail m arg1 arg2 commitOk b rest idx docs mig comm
        (by simpa using hb)] at h
      simpa using h.symm

/-- A traverser over the collection 0..9 with batch size 3, no record limit
and a valid configuration: the scenario of spec section 8. -/
def exampleTraverser : Traverser Nat :=
  ⟨List.range 10, ⟨3, 0, none, 1⟩⟩

/-- A migrator over the collection 0..9 with batch size 3 and the default
accept-everything predicate and no registered hooks. -/
def exampleMigrator : BatchMigrator Nat :=
  ⟨exampleTraverser, fun _ => true, noCallbacks⟩

/-- A migrator over one batch of five records 0..4 whose predicate accepts
exactly the two records smaller than 2: the migration scenario of spec
section 8. -/
def examplePendingMigrator : BatchMigrator Nat :=
  ⟨⟨[0, 1, 2, 3, 4], ⟨5, 0, none, 1⟩⟩, fun r => decide (r < 2), noCallbacks⟩

/-- A migrator over the batches [0,1,2] and [3,4] with the default predicate
and both hooks registered. -/
def exampleHookedMigrator : BatchMigrator Nat :=
  BatchMigrator.onAfterBatchComplete (BatchMigrator.onBeforeBatchStart
    ⟨⟨[0, 1, 2, 3, 4], ⟨3, 0, none, 1⟩⟩, fun _ => true, noCallbacks⟩)

/-- C1: for every collection of size N and every positive batch size B with
no record limit, a traversal run to completion visits exactly ceil(N/B)
batches and exactly N records; concatenating the visited batches yields the
collection itself, so no record is visited twice and none is skipped; and the
concurrent variant visits the same batches and returns the same result for
every value of `maxConcurrentBatchCount`. -/
theorem C1_complete_traversal_counts {R : Type} (t : Traverser R)
    (hB : 1 ≤ t.traversalConfig.batchSize)
    (hmax : t.traversalConfig.maxDocCount = none) :
    t.traverse.batchCount =
      (t.traversable.length + t.traversalConfig.batchSize - 1) /
        t.traversalConfig.batchSize ∧
    t.traverse.docCount = t.traversable.length ∧
    t.batches.flatten = t.traversable ∧
    (∀ K : Nat,
      fastTraverseBatches
          ⟨t.traversable,
            { t.traversalConfig with maxConcurrentBatchCount := K }⟩ =
        t.batches ∧
      Traverser.fastTraverse
          ⟨t.traversable,
            { t.traversalConfig with maxConcurrentBatchCount := K }⟩ =
        t.traverse) := by
  have hjoin : t.batches.flatten = t.traversable := by
    unfold Traverser.batches traverseBatchesFrom
    rw [hmax]
    exact traverseBatchesAux_none_join t.traversalConfig.batchSize hB
      t.traversable.length t.traversable 0 le_rfl
  refine ⟨?_, ?_, hjoin, ?_⟩
  · show t.batches.length = _
    unfold Traverser.batches traverseBatchesFrom
    rw [hmax]
    exact traverseBatchesAux_none_length t.traversalConfig.batchSize hB
      t.traversable.length t.traversable 0 le_rfl
  · show (t.batches.map List.length).sum = _
    rw [← List.length_flatten, hjoin]
  · intro K
    exact ⟨rfl, rfl⟩

/-- C1 witness: the 10-record collection with batch size 3 yields batches of
sizes [3,3,3,1], `docCount = 10` and `batchCount = 4`. -/
theorem C1_witness :
    (1 ≤ exampleTraverser.traversalConfig.batchSize ∧
      exampleTraverser.traversalConfig.maxDocCount = none) ∧
    (exampleTraverser.traverse.batchCount = 4 ∧
      exampleTraverser.traverse.docCount = 10 ∧
      exampleTraverser.batches.map List.length = [3, 3, 3, 1]) ∧
    (exampleTraverser.traverse.batchCount =
      (exampleTraverser.traversable.length +
        exampleTraverser.traversalConfig.batchSize - 1) /
        exampleTraverser.traversalConfig.batchSize ∧
      exampleTraverser.traverse.docCount =
        exampleTraverser.traversable.length ∧
      exampleTraverser.batches.flatten = exampleTraverser.traversable ∧
      (∀ K : Nat,
        fastTraverseBatches
            ⟨exampleTraverser.traversable,
              { exampleTraverser.traversalConfig with
                  maxConcurrentBatchCount := K }⟩ =
          exampleTraverser.batches ∧
        Traverser.fastTraverse
            ⟨exampleTraverser.traversable,
              { exampleTraverser.traversalConfig with
                  maxConcurrentBatchCount := K }⟩ =
          exampleTraverser.traverse)) :=
  ⟨⟨by decide, rfl⟩, ⟨rfl, rfl, rfl⟩,
    C1_complete_traversal_counts exampleTraverser (by decide) rfl⟩

/-- C2: the claim fails on the code.  `BatchMigrator.withPredicate`
(Migrator.ts lines 399-401) constructs the new migrator from the traverser
and the argument predicate alone, discarding the stored predicate instead of
AND-ing it on.  At p1 = always-false and p2 = always-true over the 10-record
collection, the chained migrator accepts record 0 although p1 rejects it, and
a set call migrates all 10 records. -/
theorem C2_withPredicate_replaces_predicate :
    ((exampleMigrator.withPredicate (fun _ => false)).withPredicate
        (fun _ => true)).migrationPredicate 0 = true ∧
    (fun (_ : Nat) => false) 0 = false ∧
    (((exampleMigrator.withPredicate (fun _ => false)).withPredicate
        (fun _ => true)).set (Sum.inr 7) none (fun _ => true)).result =
      Except.ok ⟨4, 10, 10⟩ :=
  ⟨rfl, rfl, rfl⟩

/-- C3: a completed migration call commits exactly one batched write per
visited batch, and the write of each batch stages exactly the records of that
batch that satisfy the migration predicate, in order; this holds for the
`set` entry point (which also carries the derived-data signatures) and for
the `update` entry point (which also carries the derived-data signature)
alike. -/
theorem C3_one_atomic_write_per_batch {R W V : Type} (m : BatchMigrator R)
    (dataOrGetData : (R → W) ⊕ W) (options : Option SetOptions)
    (arg1 : UpdateArg R V) (arg2 : Option V) (commitOk : Nat → Bool)
    (h : ∀ i, commitOk i = true) :
    ((m.set dataOrGetData options commitOk).committedWrites.length =
      m.traverser.batches.length ∧
      (m.set dataOrGetData options commitOk).committedWrites =
        m.traverser.batches.map (fun b =>
          (b.filter m.migrationPredicate).map
            (setWriteOp dataOrGetData options))) ∧
    ((m.update arg1 arg2 commitOk).committedWrites.length =
      m.traverser.batches.length ∧
      (m.update arg1 arg2 commitOk).committedWrites =
        m.traverser.batches.map (fun b =>
          (b.filter m.migrationPredicate).map
            (updateWriteOp arg1 arg2))) := by
  constructor
  · obtain ⟨-, r2, -⟩ := setLoop_ok m dataOrGetData options commitOk h
      m.traverser.batches 0 0 0 [] []
    have hc : (m.set dataOrGetData options commitOk).committedWrites =
        m.traverser.batches.map (fun b =>
          (b.filter m.migrationPredicate).map
            (setWriteOp dataOrGetData options)) := by
      show (BatchMigrator.setLoop m dataOrGetData options commitOk
          m.traverser.batches 0 0 0 [] []).committedWrites = _
      rw [r2]
      simp
    refine ⟨?_, hc⟩
    rw [hc, List.length_map]
  · obtain ⟨-, r2, -⟩ := updateLoop_ok m arg1 arg2 commitOk h
      m.traverser.batches 0 0 0 []
    have hc : (m.update arg1 arg2 commitOk).committedWrites =
        m.traverser.batches.map (fun b =>
          (b.filter m.migrationPredicate).map (updateWriteOp arg1 arg2)) := by
      show (BatchMigrator.updateLoop m arg1 arg2 commitOk
          m.traverser.batches 0 0 0 []).committedWrites = _
      rw [r2]
      simp
    refine ⟨?_, hc⟩
    rw [hc, List.length_map]

/-- C3 witness: the scenario migrator over one batch of five records with two
predicate matches commits exactly one write containing exactly those two
records, both through `set` and through `update`. -/
theorem C3_witness :
    (∀ i : Nat, (fun _ : Nat => true) i = true) ∧
    (examplePendingMigrator.set (Sum.inr 9) none
        (fun _ => true)).committedWrites =
      [[⟨0, 9, none⟩, ⟨1, 9, none⟩]] ∧
    (examplePendingMigrator.update (UpdateArg.value 9) none
        (fun _ => true)).committedWrites =
      [[UpdateWrite.dataUpdate 0 9, UpdateWrite.dataUpdate 1 9]] ∧
    (((examplePendingMigrator.set (Sum.inr 9) none
        (fun _ => true)).committedWrites.length =
      examplePendingMigrator.traverser.batches.length ∧
      (examplePendingMigrator.set (Sum.inr 9) none
          (fun _ => true)).committedWrites =
        examplePendingMigrator.traverser.batches.map (fun b =>
          (b.filter examplePendingMigrator.migrationPredicate).map
            (setWriteOp (Sum.inr 9) none))) ∧
    ((examplePendingMigrator.update (UpdateArg.value 9) none
        (fun _ => true)).committedWrites.length =
      examplePendingMigrator.traverser.batches.length ∧
      (examplePendingMigrator.update (UpdateArg.value 9) none
          (fun _ => true)).committedWrites =
        examplePendingMigrator.traverser.batches.map (fun b =>
          (b.filter examplePendingMigrator.migrationPredicate).map
            (updateWriteOp (UpdateArg.value 9) none)))) :=
  ⟨fun _ => rfl, rfl, rfl,
    C3_one_atomic_write_per_batch examplePendingMigrator (Sum.inr 9) none
      (UpdateArg.value 9) none (fun _ => true) (fun _ => rfl)⟩

/-- C4: a migration call that completes successfully returns a
`MigrationResult` whose `migratedDocCount` is the total over all batches of
the records that passed the migration predicate and were included in a
committed write; when the predicate is the accept-everything default, the
migrated count equals the traversed count.  Both the `set` and the `update`
operation satisfy this. -/
theorem C4_migratedDocCount_totals {R W V : Type} (m : BatchMigrator R)
    (dataOrGetData : (R → W) ⊕ W) (options : Option SetOptions)
    (arg1 : UpdateArg R V) (arg2 : Option V) (commitOk : Nat → Bool)
    (h : ∀ i, commitOk i = true) :
    (∃ res, (m.set dataOrGetData options commitOk).result = Except.ok res ∧
      res.migratedDocCount = (m.traverser.batches.map
        (fun b => (b.filter m.migrationPredicate).length)).sum ∧
      res.traversedDocCount = (m.traverser.batches.map List.length).sum ∧
      (m.migrationPredicate = (fun _ => true) →
        res.migratedDocCount = res.traversedDocCount)) ∧
    (∃ res, (m.update arg1 arg2 commitOk).result = Except.ok res ∧
      res.migratedDocCount = (m.traverser.batches.map
        (fun b => (b.filter m.migrationPredicate).length)).sum ∧
      res.traversedDocCount = (m.traverser.batches.map List.length).sum ∧
      (m.migrationPredicate = (fun _ => true) →
        res.migratedDocCount = res.traversedDocCount)) := by
  have hdefault : m.migrationPredicate = (fun _ => true) →
      (m.traverser.batches.map
        (fun b => (b.filter m.migrationPredicate).length)).sum =
      (m.traverser.batches.map List.length).sum := by
    intro hp
    rw [hp]
    simp [List.filter_true]
  constructor
  · obtain ⟨r1, -, -⟩ := setLoop_ok m dataOrGetData options commitOk h
      m.traverser.batches 0 0 0 [] []
    refine ⟨⟨0 + m.traverser.batches.length,
        0 + (m.traverser.batches.map List.length).sum,
        0 + (m.traverser.batches.map
          (fun b => (b.filter m.migrationPredicate).length)).sum⟩,
      ?_, by simp, by simp, ?_⟩
    · exact r1
    · intro hp
      simpa using hdefault hp
  · obtain ⟨r1, -, -⟩ := updateLoop_ok m arg1 arg2 commitOk h
      m.traverser.batches 0 0 0 []
    refine ⟨⟨0 + m.traverser.batches.length,
        0 + (m.traverser.batches.map List.length).sum,
        0 + (m.traverser.batches.map
          (fun b => (b.filter m.migrationPredicate).length)).sum⟩,
      ?_, by simp, by simp, ?_⟩
    · exact r1
    · intro hp
      simpa using hdefault hp

/-- C4 witness: the scenario migrator over a batch of 5 records of which 2
pass the predicate returns `migratedDocCount = 2` and
`traversedDocCount = 5`, for both `set` and `update`. -/
theorem C4_witness :
    (∀ i : Nat, (fun _ : Nat => true) i = true) ∧
    (examplePendingMigrator.set (Sum.inr 9) none (fun _ => true)).result =
      Except.ok ⟨1, 5, 2⟩ ∧
    (examplePendingMigrator.update (UpdateArg.value 9) none
        (fun _ => true)).result = Except.ok ⟨1, 5, 2⟩ ∧
    ((∃ res, (examplePendingMigrator.set (Sum.inr 9) none
        (fun _ => true)).result = Except.ok res ∧
      res.migratedDocCount = (examplePendingMigrator.traverser.batches.map
        (fun b =>
          (b.filter examplePendingMigrator.migrationPredicate).length)).sum ∧
      res.traversedDocCount =
        (examplePendingMigrator.traverser.batches.map List.length).sum ∧
      (examplePendingMigrator.migrationPredicate = (fun _ => true) →
        res.migratedDocCount = res.traversedDocCount)) ∧
    (∃ res, (examplePendingMigrator.update (UpdateArg.value 9) none
        (fun _ => true)).result = Except.ok res ∧
      res.migratedDocCount = (examplePendingMigrator.traverser.batches.map
        (fun b =>
          (b.filter examplePendingMigrator.migrationPredicate).length)).sum ∧
      res.traversedDocCount =
        (examplePendingMigrator.traverser.batches.map List.length).sum ∧
      (examplePendingMigrator.migrationPredicate = (fun _ => true) →
        res.migratedDocCount = res.traversedDocCount))) :=
  ⟨fun _ => rfl, rfl, rfl,
    C4_migratedDocCount_totals examplePendingMigrator (Sum.inr 9) none
      (UpdateArg.value 9) none (fun _ => true) (fun _ => rfl)⟩

/-- C5: when the batch-write commit of batch k fails while every earlier
commit succeeded, the migration call returns a commit error instead of a
`MigrationResult`, the remaining traversal is aborted, and exactly the writes
of the batches before k remain committed; this holds for the `set` entry
point and for the `update` entry point alike. -/
theorem C5_commit_failure_aborts {R W V : Type} (m : BatchMigrator R)
    (dataOrGetData : (R → W) ⊕ W) (options : Option SetOptions)
    (arg1 : UpdateArg R V) (arg2 : Option V) (commitOk : Nat → Bool)
    (k : Nat) (hk : k < m.traverser.batches.length)
    (hbefore : ∀ j, j < k → commitOk j = true)
    (hfail : commitOk k = false) :
    ((m.set dataOrGetData options commitOk).result =
      Except.error MigrationError.commit ∧
      (m.set dataOrGetData options commitOk).committedWrites =
        (m.traverser.batches.take k).map (fun b =>
          (b.filter m.migrationPredicate).map
            (setWriteOp dataOrGetData options))) ∧
    ((m.update arg1 arg2 commitOk).result =
      Except.error MigrationError.commit ∧
      (m.update arg1 arg2 commitOk).committedWrites =
        (m.traverser.batches.take k).map (fun b =>
          (b.filter m.migrationPredicate).map
            (updateWriteOp arg1 arg2))) := by
  have hne : m.traverser.batches.drop k ≠ [] := by
    rw [Ne, List.drop_eq_nil_iff]
    omega
  obtain ⟨b2, bs2, hd⟩ := List.exists_cons_of_ne_nil hne
  have hsplit : m.traverser.batches =
      m.traverser.batches.take k ++ b2 :: bs2 := by
    conv_lhs => rw [← List.take_append_drop k m.traverser.batches]
    rw [hd]
  have hlen : (m.traverser.batches.take k).length = k := by
    rw [List.length_take]
    exact Nat.min_eq_left (le_of_lt hk)
  have h1 : ∀ j, j < (m.traverser.batches.take k).length →
      commitOk (0 + j) = true := by
    intro j hj
    rw [hlen] at hj
    simpa using hbefore j hj
  have h2 : commitOk (0 + (m.traverser.batches.take k).length) = false := by
    rw [hlen]
    simpa using hfail
  constructor
  · obtain ⟨r1, r2, -⟩ := setLoop_fail m dataOrGetData options commitOk
      (m.traverser.batches.take k) b2 bs2 0 0 0 [] [] h1 h2
    constructor
    · show (BatchMigrator.setLoop m dataOrGetData options commitOk
          m.traverser.batches 0 0 0 [] []).result = _
      conv_lhs => rw [hsplit]
      exact r1
    · show (BatchMigrator.setLoop m dataOrGetData options commitOk
          m.traverser.batches 0 0 0 [] []).committedWrites = _
      conv_lhs => rw [hsplit]
      rw [r2]
      simp
  · obtain ⟨r1, r2, -⟩ := updateLoop_fail m arg1 arg2 commitOk
      (m.traverser.batches.take k) b2 bs2 0 0 0 [] h1 h2
    constructor
    · show (BatchMigrator.updateLoop m arg1 arg2 commitOk
          m.traverser.batches 0 0 0 []).result = _
      conv_lhs => rw [hsplit]
      exact r1
    · show (BatchMigrator.updateLoop m arg1 arg2 commitOk
          m.traverser.batches 0 0 0 []).committedWrites = _
      conv_lhs => rw [hsplit]
      rw [r2]
      simp

/-- C5 witness: over the 10-record, 4-batch collection with the commit of
batch 1 failing, both the `set` and the `update` call surface a commit error,
no result is returned, and exactly the three writes of batch 0 persist. -/
theorem C5_witness :
    (1 < exampleMigrator.traverser.batches.length ∧
      (fun i : Nat => decide (i < 1)) 1 = false) ∧
    (exampleMigrator.set (Sum.inr 7) none
        (fun i => decide (i < 1))).committedWrites =
      [[⟨0, 7, none⟩, ⟨1, 7, none⟩, ⟨2, 7, none⟩]] ∧
    (exampleMigrator.update (UpdateArg.value 7) none
        (fun i => decide (i < 1))).committedWrites =
      [[UpdateWrite.dataUpdate 0 7, UpdateWrite.dataUpdate 1 7,
        UpdateWrite.dataUpdate 2 7]] ∧
    (((exampleMigrator.set (Sum.inr 7) none
        (fun i => decide (i < 1))).result =
      Except.error MigrationError.commit ∧
      (exampleMigrator.set (Sum.inr 7) none
          (fun i => decide (i < 1))).committedWrites =
        (exampleMigrator.traverser.batches.take 1).map (fun b =>
          (b.filter exampleMigrator.migrationPredicate).map
            (setWriteOp (Sum.inr 7) none))) ∧
    ((exampleMigrator.update (UpdateArg.value 7) none
        (fun i => decide (i < 1))).result =
      Except.error MigrationError.commit ∧
      (exampleMigrator.update (UpdateArg.value 7) none
          (fun i => decide (i < 1))).committedWrites =
        (exampleMigrator.traverser.batches.take 1).map (fun b =>
          (b.filter exampleMigrator.migrationPredicate).map
            (updateWriteOp (UpdateArg.value 7) none)))) :=
  ⟨⟨by decide, rfl⟩, rfl, rfl,
    C5_commit_failure_aborts exampleMigrator (Sum.inr 7) none
      (UpdateArg.value 7) none (fun i => decide (i < 1)) 1 (by decide)
      (by
        intro j hj
        have hj0 : j = 0 := by omega
        subst hj0
        rfl)
      rfl⟩

/-- C6: the claim fails on the code.  `BatchMigrator.set` fires the
registered before-batch hook before processing a batch and the after-batch
hook after its commit (Migrator.ts lines 501, 543), but `BatchMigrator.update`
(lines 617-664) never invokes the registered hooks at all, so the per-batch
algorithm with hooks does not apply uniformly to every operation kind.  With
both hooks registered over a two-batch collection, `set` fires four hook
events and `update` fires none. -/
theorem C6_update_never_fires_hooks :
    exampleHookedMigrator.registeredCallbacks.onBeforeBatchStart = true ∧
    exampleHookedMigrator.registeredCallbacks.onAfterBatchComplete = true ∧
    (exampleHookedMigrator.set (Sum.inr 7) none (fun _ => true)).events =
      [MigratorEvent.beforeBatchStart 0, MigratorEvent.afterBatchComplete 0,
        MigratorEvent.beforeBatchStart 1,
        MigratorEvent.afterBatchComplete 1] ∧
    (exampleHookedMigrator.update (UpdateArg.value 7) none
        (fun _ => true)).events = [] :=
  ⟨rfl, rfl, rfl, rfl⟩

/-- C7: construction of a traverser or of a migrator wrapping one succeeds
exactly when the configuration has a positive batch size, positive
concurrency and non-negative delay; an invalid configuration is rejected with
a configuration error synchronously at construction; and a migration run
never surfaces a configuration error mid-traversal. -/
theorem C7_config_validated_at_construction {R W V : Type} (t : Traverser R)
    (p : R → Bool) :
    ((∃ tr, createTraverser t.traversable t.traversalConfig =
        Except.ok tr) ↔
      (1 ≤ t.traversalConfig.batchSize ∧
        1 ≤ t.traversalConfig.maxConcurrentBatchCount ∧
        0 ≤ t.traversalConfig.delayBetweenBatchesMs)) ∧
    ((∃ m, BatchMigrator.construct t p = Except.ok m) ↔
      (1 ≤ t.traversalConfig.batchSize ∧
        1 ≤ t.traversalConfig.maxConcurrentBatchCount ∧
        0 ≤ t.traversalConfig.delayBetweenBatchesMs)) ∧
    (validateConfig t.traversalConfig = false →
      createTraverser t.traversable t.traversalConfig =
        Except.error MigrationError.configuration ∧
      BatchMigrator.construct t p =
        Except.error MigrationError.configuration) ∧
    (∀ (m : BatchMigrator R) (dataOrGetData : (R → W) ⊕ W)
        (options : Option SetOptions) (commitOk : Nat → Bool),
      (m.set dataOrGetData options commitOk).result ≠
        Except.error MigrationError.configuration) ∧
    (∀ (m : BatchMigrator R) (arg1 : UpdateArg R V) (arg2 : Option V)
        (commitOk : Nat → Bool),
      (m.update arg1 arg2 commitOk).result ≠
        Except.error MigrationError.configuration) := by
  have hval : validateConfig t.traversalConfig = true ↔
      (1 ≤ t.traversalConfig.batchSize ∧
        1 ≤ t.traversalConfig.maxConcurrentBatchCount ∧
        0 ≤ t.traversalConfig.delayBetweenBatchesMs) := by
    simp [validateConfig, and_assoc]
  refine ⟨?_, ?_, ?_, ?_, ?_⟩
  · constructor
    · rintro ⟨tr, htr⟩
      by_cases hv : validateConfig t.traversalConfig = true
      · exact hval.mp hv
      · simp [createTraverser, hv] at htr
    · intro hr
      exact ⟨⟨t.traversable, t.traversalConfig⟩,
        by simp [createTraverser, hval.mpr hr]⟩
  · constructor
    · rintro ⟨mm, hm⟩
      by_cases hv : validateConfig t.traversalConfig = true
      · exact hval.mp hv
      · simp [BatchMigrator.construct, hv] at hm
    · intro hr
      exact ⟨⟨t, p, noCallbacks⟩,
        by simp [BatchMigrator.construct, hval.mpr hr]⟩
  · intro hv
    constructor
    · simp [createTraverser, hv]
    · simp [BatchMigrator.construct, hv]
  · intro m dataOrGetData options commitOk hcontra
    have := setLoop_error_is_commit m dataOrGetData options commitOk
      m.traverser.batches 0 0 0 [] [] MigrationError.configuration hcontra
    simp at this
  · intro m arg1 arg2 commitOk hcontra
    have := updateLoop_error_is_commit m arg1 arg2 commitOk
      m.traverser.batches 0 0 0 [] MigrationError.configuration hcontra
    simp at this

/-- C8: the migrator returned by `withPredicate` is constructed from the
traverser and the new predicate only: it carries no registered hooks, while
the original migrator is left unchanged in the pure embedding. -/
theorem C8_withPredicate_carries_no_hooks {R : Type} (m : BatchMigrator R)
    (p : R → Bool) :
    (m.withPredicate p).registeredCallbacks = noCallbacks ∧
    (m.withPredicate p).registeredCallbacks.onBeforeBatchStart = false ∧
    (m.withPredicate p).registeredCallbacks.onAfterBatchComplete = false ∧
    (m.withPredicate p).traverser = m.traverser ∧
    (m.withPredicate p).migrationPredicate = p :=
  ⟨rfl, rfl, rfl, rfl, rfl⟩

/-- C9: a call of `BatchMigrator.update` whose second argument is absent
(JavaScript `undefined`) has argument count 1, because the count filters out
`undefined` arguments, and is therefore dispatched as the single-argument
signature: the first argument is staged as a whole update-data object, not as
a field path; when the second argument is present the same value is staged as
a field path with a value. -/
theorem C9_update_undefined_single_arg_dispatch {R V : Type} (v : V) :
    updateArgCount (V := V) none = 1 ∧
    (∀ snapshot : R, updateWriteOp (UpdateArg.value v) none snapshot =
      UpdateWrite.dataUpdate snapshot v) ∧
    (∀ (x : V) (snapshot : R),
      updateWriteOp (UpdateArg.value v) (some x) snapshot =
        UpdateWrite.fieldUpdate snapshot v (some x)) ∧
    (∀ m : BatchMigrator R,
      (m.update (UpdateArg.value v) none (fun _ => true)).committedWrites =
        m.traverser.batches.map (fun b =>
          (b.filter m.migrationPredicate).map
            (fun s => UpdateWrite.dataUpdate s v))) := by
  refine ⟨rfl, fun _ => rfl, fun _ _ => rfl, ?_⟩
  intro m
  obtain ⟨-, r2, -⟩ := updateLoop_ok m (UpdateArg.value v) none
    (fun _ => true) (fun _ => rfl) m.traverser.batches 0 0 0 []
  show (BatchMigrator.updateLoop m (UpdateArg.value v) none (fun _ => true)
      m.traverser.batches 0 0 0 []).committedWrites = _
  rw [r2]
  simp [updateWriteOp, updateArgCount]

/-- C10: in both `set` and `update`, the internal `migratedDocCount` counter
is incremented only after the batch commit resolves; when the commit of batch
k fails after the earlier commits succeeded, the final counter value counts
exactly the predicate-passing records of the fully committed batches before
k, and the failed batch contributes nothing. -/
theorem C10_counter_reflects_committed_batches {R W V : Type}
    (m : BatchMigrator R) (dataOrGetData : (R → W) ⊕ W)
    (options : Option SetOptions) (arg1 : UpdateArg R V) (arg2 : Option V)
    (commitOk : Nat → Bool) (k : Nat)
    (hk : k < m.traverser.batches.length)
    (hbefore : ∀ j, j < k → commitOk j = true)
    (hfail : commitOk k = false) :
    (m.set dataOrGetData options commitOk).migratedDocCount =
      ((m.traverser.batches.take k).map
        (fun b => (b.filter m.migrationPredicate).length)).sum ∧
    (m.update arg1 arg2 commitOk).migratedDocCount =
      ((m.traverser.batches.take k).map
        (fun b => (b.filter m.migrationPredicate).length)).sum := by
  have hne : m.traverser.batches.drop k ≠ [] := by
    rw [Ne, List.drop_eq_nil_iff]
    omega
  obtain ⟨b2, bs2, hd⟩ := List.exists_cons_of_ne_nil hne
  have hsplit : m.traverser.batches =
      m.traverser.batches.take k ++ b2 :: bs2 := by
    conv_lhs => rw [← List.take_append_drop k m.traverser.batches]
    rw [hd]
  have hlen : (m.traverser.batches.take k).length = k := by
    rw [List.length_take]
    exact Nat.min_eq_left (le_of_lt hk)
  have h1 : ∀ j, j < (m.traverser.batches.take k).length →
      commitOk (0 + j) = true := by
    intro j hj
    rw [hlen] at hj
    simpa using hbefore j hj
  have h2 : commitOk (0 + (m.traverser.batches.take k).length) = false := by
    rw [hlen]
    simpa using hfail
  constructor
  · obtain ⟨-, -, r3⟩ := setLoop_fail m dataOrGetData options commitOk
      (m.traverser.batches.take k) b2 bs2 0 0 0 [] [] h1 h2
    show (BatchMigrator.setLoop m dataOrGetData options commitOk
        m.traverser.batches 0 0 0 [] []).migratedDocCount = _
    conv_lhs => rw [hsplit]
    rw [r3]
    simp
  · obtain ⟨-, -, r3⟩ := updateLoop_fail m arg1 arg2 commitOk
      (m.traverser.batches.take k) b2 bs2 0 0 0 [] h1 h2
    show (BatchMigrator.updateLoop m arg1 arg2 commitOk
        m.traverser.batches 0 0 0 []).migratedDocCount = _
    conv_lhs => rw [hsplit]
    rw [r3]
    simp

/-- C10 witness: over the 10-record, 4-batch collection with the commit of
batch 1 failing, the final counter of both `set` and `update` is 3 - exactly
the records of the committed batch 0. -/
theorem C10_witness :
    (1 < exampleMigrator.traverser.batches.length ∧
      (fun i : Nat => decide (i < 1)) 1 = false) ∧
    (exampleMigrator.set (Sum.inr 7) none
        (fun i => decide (i < 1))).migratedDocCount = 3 ∧
    (exampleMigrator.update (UpdateArg.value 7) none
        (fun i => decide (i < 1))).migratedDocCount = 3 ∧
    ((exampleMigrator.set (Sum.inr 7) none
        (fun i => decide (i < 1))).migratedDocCount =
      ((exampleMigrator.traverser.batches.take 1).map
        (fun b => (b.filter exampleMigrator.migrationPredicate).length)).sum ∧
      (exampleMigrator.update (UpdateArg.value 7) none
          (fun i => decide (i < 1))).migratedDocCount =
        ((exampleMigrator.traverser.batches.take 1).map
          (fun b =>
            (b.filter exampleMigrator.migrationPredicate).length)).sum) :=
  ⟨⟨by decide, rfl⟩, rfl, rfl,
    C10_counter_reflects_committed_batches exampleMigrator (Sum.inr 7) none
      (UpdateArg.value 7) none (fun i => decide (i < 1)) 1 (by decide)
      (by
        intro j hj
        have hj0 : j = 0 := by omega
        subst hj0
        rfl)
      rfl⟩

end Firecode
